import Mathlib

/-!
# A verification development of the `RequestList` work-item queue

This file gives a shallow embedding of `src/request_list.js`: a durable,
deduplicated queue of crawl requests with a dispatch cursor (`nextIndex`),
an `inProgress` set, a `reclaimed` set, and snapshot/restore logic, and
proves the specified properties of its operations.

JavaScript dictionaries used as sets (`inProgress`, `reclaimed`,
`state.inProgress`) preserve string-key insertion order, so they are
embedded as insertion-ordered lists of keys; `uniqueKeyToIndex` is an
association list whose entry order is observable only through lookups.
Thrown JavaScript errors are embedded as `Except` errors.
-/

deriving instance DecidableEq for Except

namespace RequestListSpec

/-- A crawl request. Modelled from the spec: the `Request` class
(`src/request.js`) is not under `src/`; §3 of the spec describes an Item as
a non-empty string identity `key` (`uniqueKey`) plus an opaque payload that
the queue never interprets, which we embed as a `Nat`. -/
structure Request where
  uniqueKey : String
  payload : Nat
deriving DecidableEq, Repr

/-- The errors thrown by `request_list.js`, one constructor per distinct
`throw new Error(...)` message. -/
inductive RLError where
  /-- Request object's uniqueKey must be a non-empty string. -/
  | invalidUniqueKey
  /-- The state object is invalid: nextIndex must be a non-negative number. -/
  | invalidStateNextIndex
  /-- The state object is not consistent with RequestList: too few requests loaded. -/
  | tooFewRequests
  /-- The state object is not consistent with RequestList: the order of URLs seems to have changed. -/
  | orderChanged
  /-- The state object is not consistent with RequestList: unknown uniqueKey is present in the state. -/
  | unknownUniqueKey
  /-- The request is not being processed. -/
  | notBeingProcessed
  /-- The request was already reclaimed. -/
  | alreadyReclaimed
  /-- RequestList is not initialized. -/
  | notInitialized
deriving DecidableEq, Repr

/-- `true` exactly on `Except.error`. -/
def hasError : Except RLError α → Bool
  | .error _ => true
  | .ok _ => false

/-- The mutable fields of a `RequestList` instance (constructor,
lines 109-133 of `request_list.js`). -/
structure RequestList where
  /-- Array of all requests from all sources, in source order. -/
  requests : List Request
  /-- Index into `requests` of the next request to fetch. -/
  nextIndex : Nat
  /-- Dictionary from `uniqueKey` to the index in `requests`. -/
  uniqueKeyToIndex : List (String × Nat)
  /-- Keys of requests returned by `fetchNextRequest()` (insertion order). -/
  inProgress : List String
  /-- Keys of requests for which `reclaimRequest()` was called. -/
  reclaimed : List String
  /-- Dirty flag: `false` when the state changed since the last persist. -/
  isStatePersisted : Bool
  /-- Set at the end of `initialize()`. -/
  isInitialized : Bool
deriving DecidableEq, Repr

/-- The state as constructed, before `initialize()`. -/
def emptyRequestList : RequestList :=
  { requests := []
    nextIndex := 0
    uniqueKeyToIndex := []
    inProgress := []
    reclaimed := []
    isStatePersisted := true
    isInitialized := false }

/-- The snapshot returned by `getState()` and accepted by `initialize()`:
`nextUniqueKey` may be `null` (`none`), and `inProgress` is a key set.
`nextIndex` is here restricted to the integral values an unmangled
snapshot carries (`Int`, so the sign check is meaningful); the full
JS-number domain — in which `NaN` also passes the source's
`typeof !== 'number' || < 0` check and then every comparison — is
modelled by `RLStateJS`/`restoreStateJS` below, which agree with this
restriction on finite values (`restoreStateJS_num_agrees`). -/
structure RLState where
  nextIndex : Int
  nextUniqueKey : Option String
  inProgress : List String
deriving DecidableEq, Repr

/-- Modelled from the spec: `getFirstKey` (`src/utils.js`) is not under
`src/`. It returns the first own key of a JavaScript object, or
`undefined` when there is none; for an insertion-ordered key list this is
the head. -/
def getFirstKey (d : List String) : Option String := d.head?

/-- JavaScript truthiness of a possibly-missing key: `undefined` and the
empty string are falsy. -/
def keyIsFalsy : Option String → Bool
  | none => true
  | some key => decide (key = "")

/-- `d[key] = true` on a dictionary-as-set: appends the key if absent. -/
def dictInsert (d : List String) (key : String) : List String :=
  if key ∈ d then d else d ++ [key]

/-- `ensureUniqueKeyValid` (lines 23-27): a uniqueKey must be a non-empty
string (the type already guarantees it is a string). -/
def ensureUniqueKeyValid (uniqueKey : String) : Except RLError Unit :=
  if uniqueKey = "" then .error .invalidUniqueKey else .ok ()

/-- `_ensureIsInitialized` (lines 436-440). -/
def ensureIsInitialized (rl : RequestList) : Except RLError Unit :=
  if rl.isInitialized then .ok () else .error .notInitialized

/-- `_ensureInProgressAndNotReclaimed` (lines 422-429). -/
def ensureInProgressAndNotReclaimed (rl : RequestList) (uniqueKey : String) :
    Except RLError Unit :=
  if uniqueKey ∉ rl.inProgress then .error .notBeingProcessed
  else if uniqueKey ∈ rl.reclaimed then .error .alreadyReclaimed
  else .ok ()

/-- `_addRequest` (lines 402-415): validate the key, then insert unless the
key already has an index (duplicates are silently skipped). -/
def addRequest (rl : RequestList) (request : Request) : Except RLError RequestList :=
  if request.uniqueKey = "" then .error .invalidUniqueKey
  else if (List.lookup request.uniqueKey rl.uniqueKeyToIndex).isSome then .ok rl
  else .ok { rl with
    uniqueKeyToIndex := rl.uniqueKeyToIndex ++ [(request.uniqueKey, rl.requests.length)]
    requests := rl.requests ++ [request] }

/-- The source-loading phase of `initialize()` (lines 149-155) for literal
sources: `_addRequest` on each source in order. (`requestsFromUrl` sources
perform network I/O and are outside this embedding.) -/
def loadSourcesAux (rl : RequestList) : List Request → Except RLError RequestList
  | [] => .ok rl
  | source :: rest =>
    match addRequest rl source with
    | .error e => .error e
    | .ok rl' => loadSourcesAux rl' rest

/-- Loading all sources into a fresh instance. -/
def loadSources (sources : List Request) : Except RLError RequestList :=
  loadSourcesAux emptyRequestList sources

/-- The loop over `_.keys(state.inProgress)` (lines 172-181): an unknown
uniqueKey is a fatal inconsistency; keys whose index is `>= nextIndex` are
collected into `deleteFromInProgress`. -/
def collectDeleteFromInProgress (rl : RequestList) (n : Nat) (acc : List String) :
    List String → Except RLError (List String)
  | [] => .ok acc
  | uniqueKey :: rest =>
    match List.lookup uniqueKey rl.uniqueKeyToIndex with
    | none => .error .unknownUniqueKey
    | some index =>
      collectDeleteFromInProgress rl n (if n ≤ index then acc ++ [uniqueKey] else acc) rest

/-- The state-restoring phase of `initialize()` (lines 157-208): validate
`nextIndex` and the key at the cursor, drop in-progress keys at or past the
cursor (the recovered-bug workaround), then install the cursor, the
in-progress set, and `reclaimed := clone(inProgress)`. -/
def restoreState (rl : RequestList) (st : RLState) : Except RLError RequestList :=
  if st.nextIndex < 0 then .error .invalidStateNextIndex
  else if (rl.requests.length : Int) < st.nextIndex then .error .tooFewRequests
  else if st.nextIndex.toNat < rl.requests.length ∧
      (rl.requests[st.nextIndex.toNat]?).map Request.uniqueKey ≠ st.nextUniqueKey then
    .error .orderChanged
  else
    match collectDeleteFromInProgress rl st.nextIndex.toNat [] st.inProgress with
    | .error e => .error e
    | .ok deleteFromInProgress =>
      .ok { rl with
        nextIndex := st.nextIndex.toNat
        inProgress := st.inProgress.filter
          (fun uniqueKey => decide (uniqueKey ∉ deleteFromInProgress))
        reclaimed := st.inProgress.filter
          (fun uniqueKey => decide (uniqueKey ∉ deleteFromInProgress)) }

/-- `initialize()` (lines 142-226) on a fresh instance with literal
sources: load all sources in order, restore the optional snapshot, then
mark the list initialized. An error leaves the list uninitialized. -/
def initRequestList (sources : List Request) (state : Option RLState) :
    Except RLError RequestList :=
  match loadSources sources with
  | .error e => .error e
  | .ok rl =>
    match state with
    | none => .ok { rl with isInitialized := true }
    | some st =>
      match restoreState rl st with
      | .error e => .error e
      | .ok rl' => .ok { rl' with isInitialized := true }

/-- A JavaScript number as the restore checks observe it: an integral
finite value or `NaN`, both of which pass the source's
`typeof state.nextIndex !== 'number'` test (line 161). Non-integral
finite values are omitted from the domain: every such value already
aborts initialization (a fractional `nextIndex` above the length trips
the `> length` check, and an in-range fractional one makes
`this.requests[state.nextIndex]` yield `undefined`, so reading
`.uniqueKey` throws), so they cannot separate this model from the source
on the properties stated here. `NaN`, by contrast, compares `false`
under every `<`, `>` and `>=`. -/
inductive JSNumber where
  /-- A finite integral JavaScript number. -/
  | num (v : Int)
  /-- The JavaScript `NaN` value. -/
  | nan
deriving DecidableEq, Repr

/-- JavaScript `a < b` against a finite bound: `false` on `NaN`. -/
def JSNumber.ltInt : JSNumber → Int → Bool
  | .num v, b => decide (v < b)
  | .nan, _ => false

/-- JavaScript `a > b` against a finite bound: `false` on `NaN`. -/
def JSNumber.gtInt : JSNumber → Int → Bool
  | .num v, b => decide (b < v)
  | .nan, _ => false

/-- JavaScript `index >= a` for a finite `index`: `false` on `NaN`. -/
def JSNumber.geIdx (index : Nat) : JSNumber → Bool
  | .num v => decide (v ≤ (index : Int))
  | .nan => false

/-- The array position denoted by a JavaScript number; only consulted
under an `ltInt` guard, which a `NaN` never passes. -/
def JSNumber.toPos : JSNumber → Nat
  | .num v => v.toNat
  | .nan => 0

/-- Whether a JavaScript number is a non-negative integer. -/
def JSNumber.isNonNegInt : JSNumber → Bool
  | .num v => decide (0 ≤ v)
  | .nan => false

/-- The snapshot with its `nextIndex` in the full JS-number domain;
`RLState` above is its restriction to finite values (adequate for the
snapshots `getState()` produces), and `restoreStateJS` below agrees with
`restoreState` there (`restoreStateJS_num_agrees`). -/
structure RLStateJS where
  nextIndex : JSNumber
  nextUniqueKey : Option String
  inProgress : List String
deriving DecidableEq, Repr

/-- The fields of a `RequestList` that a restore writes, with the cursor
kept in the JS-number domain (the source's `this.nextIndex =
state.nextIndex` on line 203 installs whatever number passed the
checks, `NaN` included). -/
structure RestoredJS where
  nextIndex : JSNumber
  inProgress : List String
  reclaimed : List String
  isInitialized : Bool
deriving DecidableEq, Repr

/-- The loop of lines 172-181 with the cursor in the JS-number domain:
`index >= state.nextIndex` is `false` for every index when the cursor is
`NaN`. -/
def collectDeleteFromInProgressJS (rl : RequestList) (n : JSNumber) (acc : List String) :
    List String → Except RLError (List String)
  | [] => .ok acc
  | uniqueKey :: rest =>
    match List.lookup uniqueKey rl.uniqueKeyToIndex with
    | none => .error .unknownUniqueKey
    | some index =>
      collectDeleteFromInProgressJS rl n
        (if JSNumber.geIdx index n then acc ++ [uniqueKey] else acc) rest

/-- Lines 161-207 with `state.nextIndex` in the JS-number domain: the
same checks as `restoreState`, under JavaScript comparison semantics. -/
def restoreStateJS (rl : RequestList) (st : RLStateJS) : Except RLError RestoredJS :=
  if st.nextIndex.ltInt 0 then .error .invalidStateNextIndex
  else if st.nextIndex.gtInt (rl.requests.length : Int) then .error .tooFewRequests
  else if st.nextIndex.ltInt (rl.requests.length : Int) ∧
      (rl.requests[st.nextIndex.toPos]?).map Request.uniqueKey ≠ st.nextUniqueKey then
    .error .orderChanged
  else
    match collectDeleteFromInProgressJS rl st.nextIndex [] st.inProgress with
    | .error e => .error e
    | .ok deleteFromInProgress =>
      .ok { nextIndex := st.nextIndex
            inProgress := st.inProgress.filter
              (fun uniqueKey => decide (uniqueKey ∉ deleteFromInProgress))
            reclaimed := st.inProgress.filter
              (fun uniqueKey => decide (uniqueKey ∉ deleteFromInProgress))
            isInitialized := rl.isInitialized }

/-- `initialize()` with the snapshot's `nextIndex` in the JS-number
domain. -/
def initRequestListJS (sources : List Request) (state : Option RLStateJS) :
    Except RLError RestoredJS :=
  match loadSources sources with
  | .error e => .error e
  | .ok rl =>
    match state with
    | none => .ok { nextIndex := .num (rl.nextIndex : Int)
                    inProgress := rl.inProgress
                    reclaimed := rl.reclaimed
                    isInitialized := true }
    | some st =>
      match restoreStateJS rl st with
      | .error e => .error e
      | .ok r => .ok { r with isInitialized := true }

/-- `getState()` (lines 233-243). -/
def getState (rl : RequestList) : Except RLError RLState :=
  match ensureIsInitialized rl with
  | .error e => .error e
  | .ok _ => .ok
    { nextIndex := (rl.nextIndex : Int)
      nextUniqueKey := (rl.requests[rl.nextIndex]?).map Request.uniqueKey
      inProgress := rl.inProgress }

/-- `isEmpty()` (lines 251-259): no reclaimed request and the cursor is
past the end. -/
def isEmpty (rl : RequestList) : Except RLError Bool :=
  match ensureIsInitialized rl with
  | .error e => .error e
  | .ok _ => .ok (keyIsFalsy (getFirstKey rl.reclaimed) &&
      decide (rl.requests.length ≤ rl.nextIndex))

/-- `isFinished()` (lines 266-274): nothing in progress and the cursor is
past the end. -/
def isFinished (rl : RequestList) : Except RLError Bool :=
  match ensureIsInitialized rl with
  | .error e => .error e
  | .ok _ => .ok (keyIsFalsy (getFirstKey rl.inProgress) &&
      decide (rl.requests.length ≤ rl.nextIndex))

/-- `this.requests[this.uniqueKeyToIndex[uniqueKey]]`: the request stored
for a key (undefined when the key or index is missing). -/
def requestForKey (rl : RequestList) (uniqueKey : String) : Option Request :=
  (List.lookup uniqueKey rl.uniqueKeyToIndex).bind (fun index => rl.requests[index]?)

/-- `fetchNextRequest()` (lines 281-306): serve a reclaimed request first
(the first key of the dictionary, when truthy), else the request at the
cursor (marking it in progress, advancing the cursor and dirtying the
state), else `null`. -/
def fetchNextRequest (rl : RequestList) : Except RLError (Option Request × RequestList) :=
  match ensureIsInitialized rl with
  | .error e => .error e
  | .ok _ =>
    match getFirstKey rl.reclaimed with
    | some uniqueKey =>
      if uniqueKey = "" then
        .ok (fetchFromCursor rl)
      else
        .ok (requestForKey rl uniqueKey,
          { rl with reclaimed := rl.reclaimed.erase uniqueKey })
    | none => .ok (fetchFromCursor rl)
where
  /-- The non-reclaimed half of `fetchNextRequest()` (lines 296-304). -/
  fetchFromCursor (rl : RequestList) : Option Request × RequestList :=
    match rl.requests[rl.nextIndex]? with
    | some request =>
      (some request,
        { rl with
          inProgress := dictInsert rl.inProgress request.uniqueKey
          nextIndex := rl.nextIndex + 1
          isStatePersisted := false })
    | none => (none, rl)

/-- `markRequestHandled()` (lines 315-328). -/
def markRequestHandled (rl : RequestList) (request : Request) :
    Except RLError RequestList :=
  match ensureUniqueKeyValid request.uniqueKey with
  | .error e => .error e
  | .ok _ =>
    match ensureInProgressAndNotReclaimed rl request.uniqueKey with
    | .error e => .error e
    | .ok _ =>
      match ensureIsInitialized rl with
      | .error e => .error e
      | .ok _ => .ok { rl with
          inProgress := rl.inProgress.erase request.uniqueKey
          isStatePersisted := false }

/-- `reclaimRequest()` (lines 338-350). Note that it does not touch
`isStatePersisted`. -/
def reclaimRequest (rl : RequestList) (request : Request) :
    Except RLError RequestList :=
  match ensureUniqueKeyValid request.uniqueKey with
  | .error e => .error e
  | .ok _ =>
    match ensureInProgressAndNotReclaimed rl request.uniqueKey with
    | .error e => .error e
    | .ok _ =>
      match ensureIsInitialized rl with
      | .error e => .error e
      | .ok _ => .ok { rl with reclaimed := dictInsert rl.reclaimed request.uniqueKey }

/-- `length()` (lines 445-447). -/
def length (rl : RequestList) : Nat := rl.requests.length

/-- `n` calls to `fetchNextRequest()` in sequence, collecting the returned
requests; stops early on an error. -/
def fetchN : Nat → RequestList → List (Option Request) × RequestList
  | 0, rl => ([], rl)
  | n + 1, rl =>
    match fetchNextRequest rl with
    | .error _ => ([], rl)
    | .ok (req, rl') =>
      let rest := fetchN n rl'
      (req :: rest.1, rest.2)

/-! ## Concrete instances used in scenarios and witnesses -/

/-- Source item with key `a`. -/
def reqA : Request := ⟨"a", 1⟩

/-- Source item with key `b`. -/
def reqB : Request := ⟨"b", 2⟩

/-- Source item with key `c`. -/
def reqC : Request := ⟨"c", 3⟩

/-- The three-item source list of the concrete scenario. -/
def abcSources : List Request := [reqA, reqB, reqC]

/-- A state of the `abcSources` queue: cursor `ni`, in-progress set `ip`,
reclaimed set `rc`, dirty flag `pers`. -/
def abcState (ni : Nat) (ip rc : List String) (pers : Bool) : RequestList :=
  { requests := abcSources
    nextIndex := ni
    uniqueKeyToIndex := [("a", 0), ("b", 1), ("c", 2)]
    inProgress := ip
    reclaimed := rc
    isStatePersisted := pers
    isInitialized := true }

/-! ## Helper lemmas -/

/-- A key is always a member of the dictionary it was just inserted in. -/
lemma mem_dictInsert_self (d : List String) (key : String) : key ∈ dictInsert d key := by
  unfold dictInsert
  split
  · assumption
  · simp

/-! ## Theorems -/

/-- **C2**: starting from a freshly initialized queue with sources of keys
`a`, `b`, `c` and no snapshot, the operation sequence fetchNext, fetchNext,
reclaim(a), fetchNext, markHandled(a), fetchNext, fetchNext, isEmpty,
isFinished, markHandled(b), markHandled(c), isFinished yields
a (cursor=1), b (cursor=2), ok, a (the reclaimed item served first), ok,
c (cursor=3), null, true, false, ok, ok, true. -/
theorem scenario_abc :
    initRequestList abcSources none = .ok (abcState 0 [] [] true) ∧
    fetchNextRequest (abcState 0 [] [] true) =
      .ok (some reqA, abcState 1 ["a"] [] false) ∧
    fetchNextRequest (abcState 1 ["a"] [] false) =
      .ok (some reqB, abcState 2 ["a", "b"] [] false) ∧
    reclaimRequest (abcState 2 ["a", "b"] [] false) reqA =
      .ok (abcState 2 ["a", "b"] ["a"] false) ∧
    fetchNextRequest (abcState 2 ["a", "b"] ["a"] false) =
      .ok (some reqA, abcState 2 ["a", "b"] [] false) ∧
    markRequestHandled (abcState 2 ["a", "b"] [] false) reqA =
      .ok (abcState 2 ["b"] [] false) ∧
    fetchNextRequest (abcState 2 ["b"] [] false) =
      .ok (some reqC, abcState 3 ["b", "c"] [] false) ∧
    fetchNextRequest (abcState 3 ["b", "c"] [] false) =
      .ok (none, abcState 3 ["b", "c"] [] false) ∧
    isEmpty (abcState 3 ["b", "c"] [] false) = .ok true ∧
    isFinished (abcState 3 ["b", "c"] [] false) = .ok false ∧
    markRequestHandled (abcState 3 ["b", "c"] [] false) reqB =
      .ok (abcState 3 ["c"] [] false) ∧
    markRequestHandled (abcState 3 ["c"] [] false) reqC =
      .ok (abcState 3 [] [] false) ∧
    isFinished (abcState 3 [] [] false) = .ok true := by
  decide

/-- **C10**: a successful `reclaimRequest` changes only the `reclaimed`
set; `nextIndex`, `inProgress` and the dirty flag `isStatePersisted` are
unchanged, so `getState` returns the same value before and after and the
reclaim alone never triggers a persist. -/
theorem reclaimRequest_frame (rl : RequestList) (request : Request) (rl' : RequestList)
    (hok : reclaimRequest rl request = .ok rl') :
    rl' = { rl with reclaimed := dictInsert rl.reclaimed request.uniqueKey } ∧
    rl'.nextIndex = rl.nextIndex ∧
    rl'.inProgress = rl.inProgress ∧
    rl'.isStatePersisted = rl.isStatePersisted ∧
    getState rl' = getState rl := by
  unfold reclaimRequest at hok
  split at hok
  · simp at hok
  · split at hok
    · simp at hok
    · split at hok
      · simp at hok
      · injection hok with h
        subst h
        exact ⟨rfl, rfl, rfl, rfl, rfl⟩

/-- Witness for C10 at a concrete state: reclaiming `a` in the scenario
state with `a` and `b` in progress. -/
theorem reclaimRequest_frame_witness :
    abcState 2 ["a", "b"] ["a"] false =
      { abcState 2 ["a", "b"] [] false with
        reclaimed := dictInsert (abcState 2 ["a", "b"] [] false).reclaimed reqA.uniqueKey } ∧
    (abcState 2 ["a", "b"] ["a"] false).nextIndex = (abcState 2 ["a", "b"] [] false).nextIndex ∧
    (abcState 2 ["a", "b"] ["a"] false).inProgress = (abcState 2 ["a", "b"] [] false).inProgress ∧
    (abcState 2 ["a", "b"] ["a"] false).isStatePersisted =
      (abcState 2 ["a", "b"] [] false).isStatePersisted ∧
    getState (abcState 2 ["a", "b"] ["a"] false) = getState (abcState 2 ["a", "b"] [] false) :=
  reclaimRequest_frame (abcState 2 ["a", "b"] [] false) reqA
    (abcState 2 ["a", "b"] ["a"] false) (by decide)

/-- **C6**: on an initialized queue (whose in-progress keys are valid,
i.e. non-empty), `markRequestHandled` and `reclaimRequest` throw whenever
the key is not in `inProgress` or is already in `reclaimed`, and succeed
otherwise: `markRequestHandled` removes the key from `inProgress`,
`reclaimRequest` adds it to `reclaimed`, and a second `reclaimRequest` on
the same key without an intervening fetch throws. -/
theorem markHandled_reclaim_preconditions (rl : RequestList) (request : Request)
    (hinit : rl.isInitialized = true)
    (hkeys : ∀ key ∈ rl.inProgress, key ≠ "") :
    ((request.uniqueKey ∉ rl.inProgress ∨ request.uniqueKey ∈ rl.reclaimed) →
      hasError (markRequestHandled rl request) = true ∧
      hasError (reclaimRequest rl request) = true) ∧
    (request.uniqueKey ∈ rl.inProgress → request.uniqueKey ∉ rl.reclaimed →
      markRequestHandled rl request =
        .ok { rl with inProgress := rl.inProgress.erase request.uniqueKey
                      isStatePersisted := false } ∧
      reclaimRequest rl request =
        .ok { rl with reclaimed := dictInsert rl.reclaimed request.uniqueKey } ∧
      hasError (reclaimRequest
        { rl with reclaimed := dictInsert rl.reclaimed request.uniqueKey } request) = true) := by
  constructor
  · intro hor
    by_cases hkey : request.uniqueKey = ""
    · unfold markRequestHandled reclaimRequest ensureUniqueKeyValid
      simp [hkey, hasError]
    · rcases hor with h | h
      · unfold markRequestHandled reclaimRequest ensureUniqueKeyValid
          ensureInProgressAndNotReclaimed
        simp [hkey, h, hasError]
      · have hin : request.uniqueKey ∈ rl.inProgress ∨ request.uniqueKey ∉ rl.inProgress :=
          em _
        rcases hin with hin | hin
        · unfold markRequestHandled reclaimRequest ensureUniqueKeyValid
            ensureInProgressAndNotReclaimed
          simp [hkey, hin, h, hasError]
        · unfold markRequestHandled reclaimRequest ensureUniqueKeyValid
            ensureInProgressAndNotReclaimed
          simp [hkey, hin, hasError]
  · intro hin hrec
    have hkey : request.uniqueKey ≠ "" := hkeys _ hin
    refine ⟨?_, ?_, ?_⟩
    · unfold markRequestHandled ensureUniqueKeyValid ensureInProgressAndNotReclaimed
        ensureIsInitialized
      simp [hkey, hin, hrec, hinit]
    · unfold reclaimRequest ensureUniqueKeyValid ensureInProgressAndNotReclaimed
        ensureIsInitialized
      simp [hkey, hin, hrec, hinit]
    · unfold reclaimRequest ensureUniqueKeyValid ensureInProgressAndNotReclaimed
      simp [hkey, hin, mem_dictInsert_self, hasError]

/-- Witness for C6: in the scenario state with `a` and `b` in progress,
operating on `c` (never dispatched) throws, and the success and
double-reclaim clauses hold for `a`. -/
theorem markHandled_reclaim_preconditions_witness :
    (hasError (markRequestHandled (abcState 2 ["a", "b"] [] false) reqC) = true ∧
      hasError (reclaimRequest (abcState 2 ["a", "b"] [] false) reqC) = true) ∧
    (markRequestHandled (abcState 2 ["a", "b"] [] false) reqA =
        .ok { abcState 2 ["a", "b"] [] false with
              inProgress := (abcState 2 ["a", "b"] [] false).inProgress.erase reqA.uniqueKey
              isStatePersisted := false } ∧
      reclaimRequest (abcState 2 ["a", "b"] [] false) reqA =
        .ok { abcState 2 ["a", "b"] [] false with
              reclaimed := dictInsert (abcState 2 ["a", "b"] [] false).reclaimed reqA.uniqueKey } ∧
      hasError (reclaimRequest
        { abcState 2 ["a", "b"] [] false with
          reclaimed := dictInsert (abcState 2 ["a", "b"] [] false).reclaimed reqA.uniqueKey }
        reqA) = true) :=
  ⟨(markHandled_reclaim_preconditions (abcState 2 ["a", "b"] [] false) reqC rfl
      (by decide)).1 (Or.inl (by decide)),
   (markHandled_reclaim_preconditions (abcState 2 ["a", "b"] [] false) reqA rfl
      (by decide)).2 (by decide) (by decide)⟩

/-- **C1**: on an initialized queue (with valid, resolvable reclaimed
keys), `fetchNextRequest` follows the priority order: a non-empty
reclaimed set serves some reclaimed key first, removing it from
`reclaimed` and leaving everything else (in particular `nextIndex`)
unchanged; otherwise, with `nextIndex < requests.length`, it serves
`requests[nextIndex]`, adds its key to `inProgress` and increments
`nextIndex`; otherwise it returns `null`. -/
theorem fetchNextRequest_priority (rl : RequestList)
    (hinit : rl.isInitialized = true)
    (hne : ("") ∉ rl.reclaimed)
    (hres : ∀ key ∈ rl.reclaimed, ∃ i, List.lookup key rl.uniqueKeyToIndex = some i ∧
      i < rl.requests.length) :
    (rl.reclaimed ≠ [] →
      ∃ key ∈ rl.reclaimed, ∃ i, List.lookup key rl.uniqueKeyToIndex = some i ∧
        i < rl.requests.length ∧
        fetchNextRequest rl =
          .ok (rl.requests[i]?, { rl with reclaimed := rl.reclaimed.erase key })) ∧
    (rl.reclaimed = [] → rl.nextIndex < rl.requests.length →
      ∃ request, rl.requests[rl.nextIndex]? = some request ∧
        fetchNextRequest rl =
          .ok (some request,
            { rl with
              inProgress := dictInsert rl.inProgress request.uniqueKey
              nextIndex := rl.nextIndex + 1
              isStatePersisted := false })) ∧
    (rl.reclaimed = [] → rl.requests.length ≤ rl.nextIndex →
      fetchNextRequest rl = .ok (none, rl)) := by
  refine ⟨?_, ?_, ?_⟩
  · intro h
    obtain ⟨key, rest, hrecl⟩ := List.exists_cons_of_ne_nil h
    have hkmem : key ∈ rl.reclaimed := by
      rw [hrecl]; exact List.mem_cons_self _ _
    have hkey : key ≠ "" := fun he => hne (he ▸ hkmem)
    obtain ⟨i, hlook, hlt⟩ := hres key hkmem
    refine ⟨key, hkmem, i, hlook, hlt, ?_⟩
    simp [fetchNextRequest, ensureIsInitialized, hinit, getFirstKey, hrecl, hkey,
      requestForKey, hlook]
  · intro h1 h2
    cases hget : rl.requests[rl.nextIndex]? with
    | none =>
      rw [List.getElem?_eq_none_iff] at hget
      omega
    | some request =>
      refine ⟨request, rfl, ?_⟩
      simp [fetchNextRequest, ensureIsInitialized, hinit, getFirstKey, h1,
        fetchNextRequest.fetchFromCursor, hget]
  · intro h1 h2
    have hget : rl.requests[rl.nextIndex]? = none := List.getElem?_eq_none h2
    simp [fetchNextRequest, ensureIsInitialized, hinit, getFirstKey, h1,
      fetchNextRequest.fetchFromCursor, hget]

/-- Witness for C1 at the scenario state with `a` reclaimed: all three
clauses of the priority order, instantiated. -/
theorem fetchNextRequest_priority_witness :
    ((abcState 2 ["a", "b"] ["a"] false).reclaimed ≠ [] →
      ∃ key ∈ (abcState 2 ["a", "b"] ["a"] false).reclaimed,
        ∃ i, List.lookup key (abcState 2 ["a", "b"] ["a"] false).uniqueKeyToIndex = some i ∧
        i < (abcState 2 ["a", "b"] ["a"] false).requests.length ∧
        fetchNextRequest (abcState 2 ["a", "b"] ["a"] false) =
          .ok ((abcState 2 ["a", "b"] ["a"] false).requests[i]?,
            { abcState 2 ["a", "b"] ["a"] false with
              reclaimed := (abcState 2 ["a", "b"] ["a"] false).reclaimed.erase key })) ∧
    ((abcState 2 ["a", "b"] ["a"] false).reclaimed = [] →
      (abcState 2 ["a", "b"] ["a"] false).nextIndex <
        (abcState 2 ["a", "b"] ["a"] false).requests.length →
      ∃ request,
        (abcState 2 ["a", "b"] ["a"] false).requests[(abcState 2 ["a", "b"] ["a"] false).nextIndex]? =
          some request ∧
        fetchNextRequest (abcState 2 ["a", "b"] ["a"] false) =
          .ok (some request,
            { abcState 2 ["a", "b"] ["a"] false with
              inProgress := dictInsert (abcState 2 ["a", "b"] ["a"] false).inProgress
                request.uniqueKey
              nextIndex := (abcState 2 ["a", "b"] ["a"] false).nextIndex + 1
              isStatePersisted := false })) ∧
    ((abcState 2 ["a", "b"] ["a"] false).reclaimed = [] →
      (abcState 2 ["a", "b"] ["a"] false).requests.length ≤
        (abcState 2 ["a", "b"] ["a"] false).nextIndex →
      fetchNextRequest (abcState 2 ["a", "b"] ["a"] false) =
        .ok (none, abcState 2 ["a", "b"] ["a"] false)) :=
  fetchNextRequest_priority (abcState 2 ["a", "b"] ["a"] false) rfl (by decide)
    (fun key hk => by
      simp only [abcState, List.mem_singleton] at hk
      subst hk
      exact ⟨0, rfl, by decide⟩)

/-- Dictionary insertion preserves membership. -/
lemma mem_dictInsert_of_mem {d : List String} {a : String} (k : String) (h : a ∈ d) :
    a ∈ dictInsert d k := by
  unfold dictInsert
  split
  · exact h
  · exact List.mem_append_left _ h

/-- A member of `dictInsert d k` is a member of `d` or is `k`. -/
lemma mem_of_mem_dictInsert {d : List String} {a k : String} (h : a ∈ dictInsert d k) :
    a ∈ d ∨ a = k := by
  unfold dictInsert at h
  split at h
  · exact Or.inl h
  · rcases List.mem_append.mp h with h' | h'
    · exact Or.inl h'
    · exact Or.inr (List.mem_singleton.mp h')

/-- A successful precondition check means the key is in progress and not reclaimed. -/
lemma ensureInProgressAndNotReclaimed_ok {rl : RequestList} {uniqueKey : String} {u : Unit}
    (h : ensureInProgressAndNotReclaimed rl uniqueKey = .ok u) :
    uniqueKey ∈ rl.inProgress ∧ uniqueKey ∉ rl.reclaimed := by
  by_cases h1 : uniqueKey ∈ rl.inProgress
  · by_cases h2 : uniqueKey ∈ rl.reclaimed
    · exfalso
      unfold ensureInProgressAndNotReclaimed at h
      rw [if_neg (not_not_intro h1), if_pos h2] at h
      simp at h
    · exact ⟨h1, h2⟩
  · exfalso
    unfold ensureInProgressAndNotReclaimed at h
    rw [if_pos h1] at h
    simp at h

/-- `_addRequest` never touches the tracking sets, the flag or the cursor. -/
lemma addRequest_tracking {rl rl' : RequestList} {request : Request}
    (h : addRequest rl request = .ok rl') :
    rl'.inProgress = rl.inProgress ∧ rl'.reclaimed = rl.reclaimed ∧
    rl'.isInitialized = rl.isInitialized ∧ rl'.nextIndex = rl.nextIndex := by
  unfold addRequest at h
  split at h
  · simp at h
  · split at h
    · injection h with h
      subst h
      exact ⟨rfl, rfl, rfl, rfl⟩
    · injection h with h
      subst h
      exact ⟨rfl, rfl, rfl, rfl⟩

/-- Loading sources never touches the tracking sets, the flag or the cursor. -/
lemma loadSourcesAux_tracking :
    ∀ (sources : List Request) (rl rl' : RequestList),
      loadSourcesAux rl sources = .ok rl' →
      rl'.inProgress = rl.inProgress ∧ rl'.reclaimed = rl.reclaimed ∧
      rl'.isInitialized = rl.isInitialized ∧ rl'.nextIndex = rl.nextIndex := by
  intro sources
  induction sources with
  | nil =>
    intro rl rl' h
    injection h with h
    subst h
    exact ⟨rfl, rfl, rfl, rfl⟩
  | cons source rest ih =>
    intro rl rl' h
    unfold loadSourcesAux at h
    split at h
    · simp at h
    · rename_i rl1 hadd
      obtain ⟨h1, h2, h3, h4⟩ := addRequest_tracking hadd
      obtain ⟨g1, g2, g3, g4⟩ := ih rl1 rl' h
      exact ⟨g1.trans h1, g2.trans h2, g3.trans h3, g4.trans h4⟩

/-- After a successful restore, `reclaimed` is the copy of `inProgress`. -/
lemma restoreState_sets {rl rl' : RequestList} {st : RLState}
    (h : restoreState rl st = .ok rl') :
    rl'.reclaimed = rl'.inProgress := by
  unfold restoreState at h
  split at h
  · simp at h
  · split at h
    · simp at h
    · split at h
      · simp at h
      · split at h
        · simp at h
        · injection h with h
          subst h
          rfl

/-- **C8**: the invariant `reclaimed ⊆ inProgress` holds after
initialization (with or without a restored snapshot) and is preserved by
every successful `fetchNextRequest`, `markRequestHandled` and
`reclaimRequest` call. -/
theorem reclaimed_subset_invariant :
    (∀ (sources : List Request) (st : Option RLState) (rl : RequestList),
      initRequestList sources st = .ok rl →
      ∀ key ∈ rl.reclaimed, key ∈ rl.inProgress) ∧
    (∀ (rl : RequestList) (req : Option Request) (rl' : RequestList),
      (∀ key ∈ rl.reclaimed, key ∈ rl.inProgress) →
      fetchNextRequest rl = .ok (req, rl') →
      ∀ key ∈ rl'.reclaimed, key ∈ rl'.inProgress) ∧
    (∀ (rl : RequestList) (request : Request) (rl' : RequestList),
      (∀ key ∈ rl.reclaimed, key ∈ rl.inProgress) →
      markRequestHandled rl request = .ok rl' →
      ∀ key ∈ rl'.reclaimed, key ∈ rl'.inProgress) ∧
    (∀ (rl : RequestList) (request : Request) (rl' : RequestList),
      (∀ key ∈ rl.reclaimed, key ∈ rl.inProgress) →
      reclaimRequest rl request = .ok rl' →
      ∀ key ∈ rl'.reclaimed, key ∈ rl'.inProgress) := by
  refine ⟨?_, ?_, ?_, ?_⟩
  · intro sources st rl h key hkey
    cases st with
    | none =>
      unfold initRequestList at h
      split at h
      · simp at h
      · rename_i rl0 hload
        injection h with h
        subst h
        obtain ⟨-, h2, -, -⟩ := loadSourcesAux_tracking sources emptyRequestList rl0 hload
        have : key ∈ rl0.reclaimed := hkey
        rw [h2] at this
        simp [emptyRequestList] at this
    | some s =>
      unfold initRequestList at h
      split at h
      · simp at h
      · rename_i rl0 hload
        split at h
        · rename_i heq
          exact absurd heq (by simp)
        · rename_i s' heq
          injection heq with heq
          subst heq
          split at h
          · simp at h
          · rename_i rl1 hrest
            injection h with h
            subst h
            have hs := restoreState_sets hrest
            have hx : key ∈ rl1.reclaimed := hkey
            rw [hs] at hx
            exact hx
  · intro rl req rl' hsub h key hkey
    have hcursor : ∀ r q, fetchNextRequest.fetchFromCursor rl = (r, q) →
        key ∈ q.reclaimed → key ∈ q.inProgress := by
      intro r q hc hk
      unfold fetchNextRequest.fetchFromCursor at hc
      split at hc
      · rename_i request hget
        cases hc
        exact mem_dictInsert_of_mem _ (hsub key hk)
      · cases hc
        exact hsub key hk
    unfold fetchNextRequest at h
    split at h
    · simp at h
    · split at h
      · rename_i uniqueKey hfirst
        split at h
        · injection h with h
          exact hcursor req rl' h hkey
        · injection h with h
          cases h
          have : key ∈ rl.reclaimed := List.mem_of_mem_erase hkey
          exact hsub key this
      · injection h with h
        exact hcursor req rl' h hkey
  · intro rl request rl' hsub h key hkey
    unfold markRequestHandled at h
    split at h
    · simp at h
    · split at h
      · simp at h
      · rename_i u hens
        split at h
        · simp at h
        · injection h with h
          subst h
          obtain ⟨hin, hnot⟩ := ensureInProgressAndNotReclaimed_ok hens
          have hkr : key ∈ rl.reclaimed := hkey
          have hne : key ≠ request.uniqueKey := fun he => hnot (he ▸ hkr)
          exact (List.mem_erase_of_ne hne).mpr (hsub key hkr)
  · intro rl request rl' hsub h key hkey
    unfold reclaimRequest at h
    split at h
    · simp at h
    · split at h
      · simp at h
      · rename_i u hens
        split at h
        · simp at h
        · injection h with h
          subst h
          obtain ⟨hin, hnot⟩ := ensureInProgressAndNotReclaimed_ok hens
          have hkr : key ∈ dictInsert rl.reclaimed request.uniqueKey := hkey
          rcases mem_of_mem_dictInsert hkr with h' | h'
          · exact hsub key h'
          · exact h' ▸ hin


/-- Witness for C8: after reclaiming `a` in the scenario state, the
reclaimed set is still a subset of the in-progress set. -/
theorem reclaimed_subset_invariant_witness :
    ∀ key ∈ (abcState 2 ["a", "b"] ["a"] false).reclaimed,
      key ∈ (abcState 2 ["a", "b"] ["a"] false).inProgress :=
  reclaimed_subset_invariant.2.2.2 (abcState 2 ["a", "b"] [] false) reqA
    (abcState 2 ["a", "b"] ["a"] false) (by decide) (by decide)

/-- A queue with a single item that has been fetched but neither completed
nor reclaimed: the cursor is exhausted but the item is still in flight. -/
def oneFetched : RequestList :=
  { requests := [reqA]
    nextIndex := 1
    uniqueKeyToIndex := [("a", 0)]
    inProgress := ["a"]
    reclaimed := []
    isStatePersisted := false
    isInitialized := true }

/-- **C9**: on reachable initialized states (`reclaimed ⊆ inProgress`,
valid in-progress keys), `isFinished() = true` implies `isEmpty() = true`;
the converse fails on `oneFetched`, where `isEmpty()` is true while
`isFinished()` is false. -/
theorem finished_implies_empty :
    (∀ rl : RequestList,
      (∀ key ∈ rl.reclaimed, key ∈ rl.inProgress) → ("") ∉ rl.inProgress →
      isFinished rl = .ok true → isEmpty rl = .ok true) ∧
    (isEmpty oneFetched = .ok true ∧ isFinished oneFetched = .ok false) := by
  constructor
  · intro rl hsub hne hfin
    unfold isFinished at hfin
    split at hfin
    · simp at hfin
    · injection hfin with hfin
      rw [Bool.and_eq_true] at hfin
      obtain ⟨h1, h2⟩ := hfin
      have hip : rl.inProgress = [] := by
        cases hip : rl.inProgress with
        | nil => rfl
        | cons k t =>
          exfalso
          rw [hip] at h1
          unfold getFirstKey keyIsFalsy at h1
          simp at h1
          exact hne (h1 ▸ (hip ▸ List.mem_cons_self k t))
      have hrecl : rl.reclaimed = [] := by
        rw [List.eq_nil_iff_forall_not_mem]
        intro k hk
        have := hsub k hk
        rw [hip] at this
        simp at this
      unfold isEmpty
      rename_i hok heq
      rw [heq]
      rw [hrecl]
      simp [getFirstKey, keyIsFalsy, h2]
  · exact ⟨by decide, by decide⟩


/-- Witness for C9 at the fully handled scenario state. -/
theorem finished_implies_empty_witness :
    isEmpty (abcState 3 [] [] false) = .ok true :=
  finished_implies_empty.1 (abcState 3 [] [] false) (by decide) (by decide) (by decide)

/-- The result of loading `abcSources` before initialization completes. -/
def abcLoaded : RequestList := { abcState 0 [] [] true with isInitialized := false }

/-- On finite non-negative cursors the JS-number in-progress scan agrees
with the integer one. -/
lemma collectDeleteJS_num_agrees (rl : RequestList) (v : Int) (hv : 0 ≤ v) :
    ∀ (keys acc : List String),
      collectDeleteFromInProgressJS rl (.num v) acc keys =
        collectDeleteFromInProgress rl v.toNat acc keys := by
  intro keys
  induction keys with
  | nil => intro acc; rfl
  | cons k rest ih =>
    intro acc
    unfold collectDeleteFromInProgressJS collectDeleteFromInProgress
    cases hlk : List.lookup k rl.uniqueKeyToIndex with
    | none => simp [hlk]
    | some i =>
      simp only [hlk]
      have hg : JSNumber.geIdx i (JSNumber.num v) = decide (v.toNat ≤ i) := by
        show decide (v ≤ (i : Int)) = decide (v.toNat ≤ i)
        exact decide_eq_decide.mpr (by omega)
      rw [hg]
      simp only [decide_eq_true_eq]
      exact ih _

/-- On finite cursors the JS-number restore agrees with the integer
restore: the JS-number domain strictly extends the `RLState` model, and
only `NaN` behaves differently. -/
lemma restoreStateJS_num_agrees (rl : RequestList) (v : Int) (nk : Option String)
    (ip : List String) :
    restoreStateJS rl ⟨.num v, nk, ip⟩ =
      (restoreState rl ⟨v, nk, ip⟩).map
        (fun r => ⟨.num (r.nextIndex : Int), r.inProgress, r.reclaimed, r.isInitialized⟩) := by
  by_cases h0 : v < 0
  · have hc : JSNumber.ltInt (JSNumber.num v) 0 = true := by
      show decide (v < 0) = true
      exact decide_eq_true h0
    simp only [restoreStateJS, restoreState]
    rw [if_pos hc, if_pos h0]
    rfl
  · have hc : JSNumber.ltInt (JSNumber.num v) 0 = false := by
      show decide (v < 0) = false
      exact decide_eq_false h0
    by_cases h1 : (rl.requests.length : Int) < v
    · have hg : JSNumber.gtInt (JSNumber.num v) (rl.requests.length : Int) = true := by
        show decide ((rl.requests.length : Int) < v) = true
        exact decide_eq_true h1
      simp only [restoreStateJS, restoreState]
      rw [if_neg (by rw [hc]; exact Bool.false_ne_true), if_neg h0, if_pos hg, if_pos h1]
      rfl
    · have hg : JSNumber.gtInt (JSNumber.num v) (rl.requests.length : Int) = false := by
        show decide ((rl.requests.length : Int) < v) = false
        exact decide_eq_false h1
      by_cases h2 : v.toNat < rl.requests.length ∧
          (rl.requests[v.toNat]?).map Request.uniqueKey ≠ nk
      · have hcc : JSNumber.ltInt (JSNumber.num v) (rl.requests.length : Int) = true := by
          show decide (v < (rl.requests.length : Int)) = true
          exact decide_eq_true (by omega)
        simp only [restoreStateJS, restoreState]
        rw [if_neg (by rw [hc]; exact Bool.false_ne_true),
          if_neg (by rw [hg]; exact Bool.false_ne_true), if_neg h0, if_neg h1,
          if_pos (show JSNumber.ltInt (JSNumber.num v) (rl.requests.length : Int) = true ∧
            (rl.requests[(JSNumber.num v).toPos]?).map Request.uniqueKey ≠ nk from
            ⟨hcc, h2.2⟩), if_pos h2]
        rfl
      · simp only [restoreStateJS, restoreState]
        rw [if_neg (by rw [hc]; exact Bool.false_ne_true),
          if_neg (by rw [hg]; exact Bool.false_ne_true), if_neg h0, if_neg h1]
        rw [if_neg (show ¬(JSNumber.ltInt (JSNumber.num v) (rl.requests.length : Int) = true ∧
            (rl.requests[(JSNumber.num v).toPos]?).map Request.uniqueKey ≠ nk) from by
          rintro ⟨ha, hb⟩
          apply h2
          refine ⟨?_, hb⟩
          have hvl : v < (rl.requests.length : Int) := of_decide_eq_true ha
          omega), if_neg h2]
        rw [collectDeleteJS_num_agrees rl v (by omega) ip []]
        cases collectDeleteFromInProgress rl v.toNat [] ip with
        | error e => rfl
        | ok del =>
          simp only [Except.map]
          have hvt : ((v.toNat : Int)) = v := by omega
          rw [hvt]

/-- Counterexample for C7: `NaN` is not a non-negative integer, yet it
passes the source's `typeof state.nextIndex !== 'number' || state.nextIndex
< 0` check and — comparing `false` under `<`, `>` and `>=` alike — every
later range check, so restore succeeds and the queue becomes initialized
with the `NaN` cursor installed. -/
theorem restore_rejects_nan_counterexample :
    JSNumber.isNonNegInt JSNumber.nan = false ∧
    initRequestListJS abcSources (some ⟨JSNumber.nan, none, ["a"]⟩) =
      .ok { nextIndex := JSNumber.nan
            inProgress := ["a"]
            reclaimed := ["a"]
            isInitialized := true } := by
  decide

/-- **C7** (amended): over the full JS-number snapshot domain, restore
fails — so the queue never becomes initialized — whenever the snapshot's
`nextIndex` is a finite number that is negative, or exceeds the number of
freshly loaded requests, or is a finite in-range position whose freshly
loaded `uniqueKey` differs from the snapshot's `nextUniqueKey`; a `NaN`
`nextIndex` instead slips through every check
(`restore_rejects_nan_counterexample`). -/
theorem restore_rejects_finite (sources : List Request) (rl0 : RequestList) (v : Int)
    (nk : Option String) (ip : List String)
    (hload : loadSources sources = .ok rl0) :
    (v < 0 → initRequestListJS sources (some ⟨.num v, nk, ip⟩) =
      .error .invalidStateNextIndex) ∧
    ((rl0.requests.length : Int) < v → initRequestListJS sources (some ⟨.num v, nk, ip⟩) =
      .error .tooFewRequests) ∧
    (0 ≤ v → v.toNat < rl0.requests.length →
      (rl0.requests[v.toNat]?).map Request.uniqueKey ≠ nk →
      initRequestListJS sources (some ⟨.num v, nk, ip⟩) = .error .orderChanged) := by
  have hinit : initRequestListJS sources (some ⟨.num v, nk, ip⟩) =
      match restoreStateJS rl0 ⟨.num v, nk, ip⟩ with
      | .error e => .error e
      | .ok r => .ok { r with isInitialized := true } := by
    unfold initRequestListJS
    rw [hload]
  refine ⟨?_, ?_, ?_⟩
  · intro h
    rw [hinit]
    have hc : JSNumber.ltInt (JSNumber.num v) 0 = true := by
      show decide (v < 0) = true
      exact decide_eq_true h
    simp only [restoreStateJS]
    rw [if_pos hc]
  · intro h
    rw [hinit]
    have hc : JSNumber.ltInt (JSNumber.num v) 0 = false := by
      show decide (v < 0) = false
      exact decide_eq_false (by omega)
    have hg : JSNumber.gtInt (JSNumber.num v) (rl0.requests.length : Int) = true := by
      show decide ((rl0.requests.length : Int) < v) = true
      exact decide_eq_true h
    simp only [restoreStateJS]
    rw [if_neg (by rw [hc]; exact Bool.false_ne_true), if_pos hg]
  · intro h0 h1 h2
    rw [hinit]
    have hc : JSNumber.ltInt (JSNumber.num v) 0 = false := by
      show decide (v < 0) = false
      exact decide_eq_false (by omega)
    have hg : JSNumber.gtInt (JSNumber.num v) (rl0.requests.length : Int) = false := by
      show decide ((rl0.requests.length : Int) < v) = false
      exact decide_eq_false (by omega)
    have hcc : JSNumber.ltInt (JSNumber.num v) (rl0.requests.length : Int) = true := by
      show decide (v < (rl0.requests.length : Int)) = true
      exact decide_eq_true (by omega)
    simp only [restoreStateJS]
    rw [if_neg (by rw [hc]; exact Bool.false_ne_true),
      if_neg (by rw [hg]; exact Bool.false_ne_true),
      if_pos (show JSNumber.ltInt (JSNumber.num v) (rl0.requests.length : Int) = true ∧
        (rl0.requests[(JSNumber.num v).toPos]?).map Request.uniqueKey ≠ nk from ⟨hcc, h2⟩)]

/-- Witness for the amended C7: the three rejection cases at concrete
finite snapshots against the three-item source list. -/
theorem restore_rejects_finite_witness :
    initRequestListJS abcSources (some ⟨JSNumber.num (-1), none, []⟩) =
      .error .invalidStateNextIndex ∧
    initRequestListJS abcSources (some ⟨JSNumber.num 4, none, []⟩) =
      .error .tooFewRequests ∧
    initRequestListJS abcSources (some ⟨JSNumber.num 1, none, []⟩) =
      .error .orderChanged :=
  ⟨(restore_rejects_finite abcSources abcLoaded (-1) none [] (by decide)).1 (by decide),
   (restore_rejects_finite abcSources abcLoaded 4 none [] (by decide)).2.1 (by decide),
   (restore_rejects_finite abcSources abcLoaded 1 none [] (by decide)).2.2 (by decide)
     (by decide) (by decide)⟩


/-- Whether a key resolves to a position at or past the cursor `n`. -/
def keyAtOrPastCursor (rl : RequestList) (n : Nat) (uniqueKey : String) : Bool :=
  match List.lookup uniqueKey rl.uniqueKeyToIndex with
  | some index => decide (n ≤ index)
  | none => false

/-- The in-progress scan fails as soon as any key has no index. -/
lemma collect_error_of_unknown (rl : RequestList) (n : Nat) :
    ∀ (keys acc : List String) (key : String), key ∈ keys →
      List.lookup key rl.uniqueKeyToIndex = none →
      collectDeleteFromInProgress rl n acc keys = .error .unknownUniqueKey := by
  intro keys
  induction keys with
  | nil =>
    intro acc key h
    simp at h
  | cons k rest ih =>
    intro acc key hmem hnone
    unfold collectDeleteFromInProgress
    cases hlk : List.lookup k rl.uniqueKeyToIndex with
    | none => rfl
    | some i =>
      rcases List.mem_cons.mp hmem with he | hm
      · subst he
        rw [hlk] at hnone
        simp at hnone
      · exact ih _ key hm hnone

/-- When every key has an index, the in-progress scan collects exactly the
keys at or past the cursor. -/
lemma collect_ok_of_known (rl : RequestList) (n : Nat) :
    ∀ (keys acc : List String),
      (∀ key ∈ keys, (List.lookup key rl.uniqueKeyToIndex).isSome) →
      collectDeleteFromInProgress rl n acc keys =
        .ok (acc ++ keys.filter (keyAtOrPastCursor rl n)) := by
  intro keys
  induction keys with
  | nil =>
    intro acc h
    simp [collectDeleteFromInProgress]
  | cons k rest ih =>
    intro acc h
    unfold collectDeleteFromInProgress
    split
    · rename_i hlk
      exfalso
      have := h k (List.mem_cons_self _ _)
      rw [hlk] at this
      simp at this
    · rename_i i hlk
      rw [ih _ (fun key hk => h key (List.mem_cons_of_mem _ hk))]
      by_cases hni : n ≤ i
      · rw [if_pos hni]
        have hk : keyAtOrPastCursor rl n k = true := by
          unfold keyAtOrPastCursor
          rw [hlk]
          simp [hni]
        simp [List.filter_cons, hk]
      · rw [if_neg hni]
        have hk : keyAtOrPastCursor rl n k = false := by
          unfold keyAtOrPastCursor
          rw [hlk]
          simp [hni]
        simp [List.filter_cons, hk]

/-- A restore whose snapshot passes the cursor checks and whose in-progress
keys all resolve succeeds, keeping only the keys strictly before the
cursor (in both `inProgress` and `reclaimed`). -/
lemma restoreState_ok_of_known (rl0 : RequestList) (st : RLState)
    (h0 : 0 ≤ st.nextIndex)
    (hle : st.nextIndex ≤ (rl0.requests.length : Int))
    (hcur : ¬(st.nextIndex.toNat < rl0.requests.length ∧
      (rl0.requests[st.nextIndex.toNat]?).map Request.uniqueKey ≠ st.nextUniqueKey))
    (hknown : ∀ key ∈ st.inProgress, (List.lookup key rl0.uniqueKeyToIndex).isSome) :
    restoreState rl0 st = .ok { rl0 with
      nextIndex := st.nextIndex.toNat
      inProgress := st.inProgress.filter (fun uniqueKey => decide
        (uniqueKey ∉ st.inProgress.filter (keyAtOrPastCursor rl0 st.nextIndex.toNat)))
      reclaimed := st.inProgress.filter (fun uniqueKey => decide
        (uniqueKey ∉ st.inProgress.filter (keyAtOrPastCursor rl0 st.nextIndex.toNat))) } := by
  unfold restoreState
  rw [if_neg (by omega), if_neg (by omega), if_neg hcur,
    collect_ok_of_known rl0 st.nextIndex.toNat st.inProgress [] hknown]
  simp

/-- **C4**: during restore (with the cursor checks passing), an in-progress
key that does not occur in the loaded requests makes initialization fail
with the fatal inconsistency error; when all keys occur, any key at a
position `>=` the snapshot's `nextIndex` is dropped from `inProgress` (and
from `reclaimed`), initialization succeeds, and the dropped key sits at or
past the new cursor, to be dispatched normally later. -/
theorem restore_inProgress_validation (sources : List Request) (rl0 : RequestList) (st : RLState)
    (hload : loadSources sources = .ok rl0)
    (h0 : 0 ≤ st.nextIndex)
    (hle : st.nextIndex ≤ (rl0.requests.length : Int))
    (hcur : ¬(st.nextIndex.toNat < rl0.requests.length ∧
      (rl0.requests[st.nextIndex.toNat]?).map Request.uniqueKey ≠ st.nextUniqueKey)) :
    ((∃ key ∈ st.inProgress, List.lookup key rl0.uniqueKeyToIndex = none) →
      initRequestList sources (some st) = .error .unknownUniqueKey) ∧
    ((∀ key ∈ st.inProgress, (List.lookup key rl0.uniqueKeyToIndex).isSome) →
      ∃ rl', initRequestList sources (some st) = .ok rl' ∧
        rl'.nextIndex = st.nextIndex.toNat ∧
        ∀ key ∈ st.inProgress, ∀ i, List.lookup key rl0.uniqueKeyToIndex = some i →
          st.nextIndex.toNat ≤ i →
          key ∉ rl'.inProgress ∧ key ∉ rl'.reclaimed ∧ rl'.nextIndex ≤ i) := by
  have hinit : initRequestList sources (some st) =
      match restoreState rl0 st with
      | .error e => .error e
      | .ok rl' => .ok { rl' with isInitialized := true } := by
    unfold initRequestList
    rw [hload]
  constructor
  · rintro ⟨key, hmem, hnone⟩
    rw [hinit]
    unfold restoreState
    rw [if_neg (by omega), if_neg (by omega), if_neg hcur,
      collect_error_of_unknown rl0 st.nextIndex.toNat st.inProgress [] key hmem hnone]
  · intro hknown
    rw [hinit, restoreState_ok_of_known rl0 st h0 hle hcur hknown]
    refine ⟨_, rfl, rfl, ?_⟩
    intro key hmem i hlk hge
    have hdel : key ∈ st.inProgress.filter (keyAtOrPastCursor rl0 st.nextIndex.toNat) := by
      rw [List.mem_filter]
      refine ⟨hmem, ?_⟩
      unfold keyAtOrPastCursor
      rw [hlk]
      simp [hge]
    have hnotin : key ∉ st.inProgress.filter (fun uniqueKey => decide
        (uniqueKey ∉ st.inProgress.filter (keyAtOrPastCursor rl0 st.nextIndex.toNat))) := by
      intro hin
      have h2 := (List.mem_filter.mp hin).2
      simp only [decide_eq_true_eq] at h2
      exact h2 hdel
    exact ⟨hnotin, hnotin, hge⟩


/-- Witness for C4: restoring `["a", "x"]` (unknown key `x`) fails;
restoring `["a", "c"]` at cursor 2 succeeds and drops `c` (position 2). -/
theorem restore_inProgress_validation_witness :
    initRequestList abcSources (some ⟨2, some ("c"), ["a", "x"]⟩) =
      .error .unknownUniqueKey ∧
    (∃ rl', initRequestList abcSources (some ⟨2, some ("c"), ["a", "c"]⟩) = .ok rl' ∧
      rl'.nextIndex = 2 ∧
      ∀ key ∈ (["a", "c"] : List String), ∀ i,
        List.lookup key abcLoaded.uniqueKeyToIndex = some i → 2 ≤ i →
        key ∉ rl'.inProgress ∧ key ∉ rl'.reclaimed ∧ rl'.nextIndex ≤ i) :=
  ⟨(restore_inProgress_validation abcSources abcLoaded ⟨2, some ("c"), ["a", "x"]⟩
      (by decide) (by decide) (by decide) (by decide)).1 ⟨"x", by decide, by decide⟩,
   (restore_inProgress_validation abcSources abcLoaded ⟨2, some ("c"), ["a", "c"]⟩
      (by decide) (by decide) (by decide) (by decide)).2 (by decide)⟩

/-- The loading-phase invariant: keys of stored requests are distinct, the
key-to-index dictionary knows exactly the stored keys, and every stored key
is non-empty. -/
def loadInvariant (rl : RequestList) : Prop :=
  (rl.requests.map Request.uniqueKey).Nodup ∧
  (∀ k, (List.lookup k rl.uniqueKeyToIndex).isSome ↔ k ∈ rl.requests.map Request.uniqueKey) ∧
  (∀ k ∈ rl.requests.map Request.uniqueKey, k ≠ "")

/-- Association-list lookup over an append tries the left part first. -/
lemma lookup_append (k : String) (m1 m2 : List (String × Nat)) :
    List.lookup k (m1 ++ m2) =
      match List.lookup k m1 with
      | some v => some v
      | none => List.lookup k m2 := by
  induction m1 with
  | nil => simp [List.lookup]
  | cons p t ih =>
    obtain ⟨a, b⟩ := p
    by_cases hk : k == a
    · simp [List.lookup, hk]
    · simp only [List.cons_append, List.lookup, hk]
      exact ih

/-- Lookup over an append succeeds iff it succeeds in either part. -/
lemma lookup_append_isSome (k : String) (m1 m2 : List (String × Nat)) :
    (List.lookup k (m1 ++ m2)).isSome =
      ((List.lookup k m1).isSome || (List.lookup k m2).isSome) := by
  rw [lookup_append]
  cases List.lookup k m1 <;> simp

/-- Lookup in a one-entry dictionary succeeds exactly on its key. -/
lemma lookup_singleton_isSome (k a : String) (v : Nat) :
    (List.lookup k [(a, v)]).isSome = (k == a) := by
  by_cases h : k == a
  · simp [List.lookup, h]
  · simp [List.lookup, h]

/-- The fresh instance satisfies the loading invariant. -/
lemma emptyRequestList_invariant : loadInvariant emptyRequestList := by
  refine ⟨by simp [emptyRequestList], ?_, by simp [emptyRequestList]⟩
  intro k
  simp [emptyRequestList, List.lookup]

/-- `_addRequest` preserves the loading invariant and either skips a
duplicate key or appends a brand-new one. -/
lemma addRequest_invariant {rl rl' : RequestList} {request : Request}
    (hinv : loadInvariant rl) (h : addRequest rl request = .ok rl') :
    loadInvariant rl' ∧
    ((rl'.requests = rl.requests ∧
        request.uniqueKey ∈ rl.requests.map Request.uniqueKey) ∨
      (rl'.requests = rl.requests ++ [request] ∧
        request.uniqueKey ∉ rl.requests.map Request.uniqueKey)) := by
  obtain ⟨hnd, hiff, hne⟩ := hinv
  unfold addRequest at h
  split at h
  · simp at h
  · rename_i hkey
    split at h
    · rename_i hsome
      injection h with h
      subst h
      exact ⟨⟨hnd, hiff, hne⟩, Or.inl ⟨rfl, (hiff _).mp hsome⟩⟩
    · rename_i hnone
      injection h with h
      subst h
      have hmem : request.uniqueKey ∉ rl.requests.map Request.uniqueKey := by
        intro hm
        exact hnone ((hiff _).mpr hm)
      refine ⟨⟨?_, ?_, ?_⟩, Or.inr ⟨rfl, hmem⟩⟩
      · simp only [List.map_append, List.map_cons, List.map_nil]
        rw [List.nodup_append]
        refine ⟨hnd, List.nodup_singleton _, ?_⟩
        intro a ha hb
        simp only [List.mem_singleton] at hb
        subst hb
        exact hmem ha
      · intro k
        simp only [List.map_append, List.map_cons, List.map_nil]
        rw [lookup_append_isSome, lookup_singleton_isSome, Bool.or_eq_true, List.mem_append]
        constructor
        · rintro (h | h)
          · exact Or.inl ((hiff k).mp h)
          · right
            simpa using h
        · rintro (h | h)
          · exact Or.inl ((hiff k).mpr h)
          · right
            simp only [List.mem_singleton] at h
            simp [h]
      · intro k hk
        simp only [List.map_append, List.map_cons, List.map_nil] at hk
        rcases List.mem_append.mp hk with hm | hm
        · exact hne k hm
        · simp only [List.mem_singleton] at hm
          subst hm
          exact hkey

/-- Loading appends exactly the sources whose keys are new, and each kept
request is the first source carrying its key. -/
lemma loadSourcesAux_dedup :
    ∀ (sources : List Request) (rl0 rl : RequestList),
      loadInvariant rl0 →
      loadSourcesAux rl0 sources = .ok rl →
      loadInvariant rl ∧
      ∃ added, rl.requests = rl0.requests ++ added ∧
        ∀ r ∈ added, r.uniqueKey ∉ rl0.requests.map Request.uniqueKey ∧
          sources.find? (fun s' => s'.uniqueKey == r.uniqueKey) = some r := by
  intro sources
  induction sources with
  | nil =>
    intro rl0 rl hinv h
    injection h with h
    subst h
    exact ⟨hinv, [], by simp, by simp⟩
  | cons source rest ih =>
    intro rl0 rl hinv h
    unfold loadSourcesAux at h
    split at h
    · simp at h
    · rename_i rl1 hadd
      obtain ⟨hinv1, hcase⟩ := addRequest_invariant hinv hadd
      obtain ⟨hinvr, added1, heq, hprop⟩ := ih rl1 rl hinv1 h
      rcases hcase with ⟨hreq, hkin⟩ | ⟨hreq, hkout⟩
      · refine ⟨hinvr, added1, by rw [heq, hreq], ?_⟩
        intro r hr
        obtain ⟨hnotin, hfind⟩ := hprop r hr
        rw [hreq] at hnotin
        refine ⟨hnotin, ?_⟩
        rw [List.find?_cons_of_neg, hfind]
        intro hbe
        have he : source.uniqueKey = r.uniqueKey := by simpa using hbe
        exact hnotin (he ▸ hkin)
      · refine ⟨hinvr, source :: added1, ?_, ?_⟩
        · rw [heq, hreq]
          simp
        · intro r hr
          rcases List.mem_cons.mp hr with he | hm
          · subst he
            exact ⟨hkout, List.find?_cons_of_pos _ (by simp)⟩
          · obtain ⟨hnotin, hfind⟩ := hprop r hm
            rw [hreq] at hnotin
            simp only [List.map_append, List.map_cons, List.map_nil] at hnotin
            have h1 : r.uniqueKey ∉ rl0.requests.map Request.uniqueKey :=
              fun hm' => hnotin (List.mem_append_left _ hm')
            have h2 : r.uniqueKey ≠ source.uniqueKey :=
              fun he => hnotin (List.mem_append_right _ (by simp [he]))
            refine ⟨h1, ?_⟩
            rw [List.find?_cons_of_neg, hfind]
            intro hbe
            have he : source.uniqueKey = r.uniqueKey := by simpa using hbe
            exact h2 he.symm
          
/-- **C5**: after loading any source list, each `uniqueKey` occurs at most
once among the stored requests, and the request kept for a key is the
first source with that key in load order (later duplicates are silently
skipped). -/
theorem load_dedup_first_wins (sources : List Request) (rl : RequestList)
    (hload : loadSources sources = .ok rl) :
    (rl.requests.map Request.uniqueKey).Nodup ∧
    ∀ r ∈ rl.requests, sources.find? (fun s' => s'.uniqueKey == r.uniqueKey) = some r := by
  obtain ⟨hinv, added, heq, hprop⟩ :=
    loadSourcesAux_dedup sources emptyRequestList rl emptyRequestList_invariant hload
  refine ⟨hinv.1, ?_⟩
  intro r hr
  rw [heq] at hr
  simp only [emptyRequestList, List.nil_append] at hr
  exact (hprop r hr).2


/-- A source list with a duplicated key `a`. -/
def dupSources : List Request := [reqA, reqB, ⟨"a", 9⟩]

/-- The queue obtained by loading `dupSources`: the later `a` is dropped. -/
def dupLoaded : RequestList :=
  { requests := [reqA, reqB]
    nextIndex := 0
    uniqueKeyToIndex := [("a", 0), ("b", 1)]
    inProgress := []
    reclaimed := []
    isStatePersisted := true
    isInitialized := false }

/-- Witness for C5 on `dupSources`: keys are unique and the stored `a`
carries the first occurrence's payload. -/
theorem load_dedup_first_wins_witness :
    (dupLoaded.requests.map Request.uniqueKey).Nodup ∧
    ∀ r ∈ dupLoaded.requests,
      dupSources.find? (fun s' => s'.uniqueKey == r.uniqueKey) = some r :=
  load_dedup_first_wins dupSources dupLoaded (by decide)


/-- Draining: with `reclaimed = R` (all keys valid), `R.length` fetches
return exactly the requests stored for the keys of `R`, in order, and empty
the reclaimed set without touching anything else. -/
lemma fetchN_drain :
    ∀ (R : List String) (rl : RequestList),
      rl.isInitialized = true →
      rl.reclaimed = R →
      (∀ key ∈ R, key ≠ "") →
      fetchN R.length rl = (R.map (requestForKey rl), { rl with reclaimed := [] }) := by
  intro R
  induction R with
  | nil =>
    intro rl h1 h2 h3
    cases rl
    simp only at h2
    subst h2
    rfl
  | cons key rest ih =>
    intro rl h1 h2 h3
    have hkey : key ≠ "" := h3 key (List.mem_cons_self _ _)
    have hfetch : fetchNextRequest rl =
        .ok (requestForKey rl key, { rl with reclaimed := rl.reclaimed.erase key }) := by
      unfold fetchNextRequest ensureIsInitialized
      simp [h1, getFirstKey, h2, hkey]
    have herase : rl.reclaimed.erase key = rest := by
      rw [h2]
      simp [List.erase_cons_head]
    have hih := ih { rl with reclaimed := rl.reclaimed.erase key } h1 herase
      (fun k hk => h3 k (List.mem_cons_of_mem _ hk))
    simp only [List.length_cons]
    unfold fetchN
    rw [hfetch]
    simp only []
    rw [hih]
    rfl


/-- **C3**: snapshot round-trip. For a queue loaded from `sources` with
cursor `k` and non-empty in-flight set `S` whose members all sit at
positions `< k`: `getState()` yields the snapshot `⟨k, key-at-k, S⟩`;
initializing a fresh queue from the same sources with that snapshot
succeeds and sets `nextIndex = k`, `inProgress = S` and
`reclaimed = copy of S`; the next `S.length` fetches then return exactly
the requests with keys in `S` — all stored at positions `< k` — leaving
`reclaimed` empty and the cursor at `k`, so only then can items at
positions `>= k` be served. -/
theorem snapshot_roundtrip (sources : List Request) (rl0 : RequestList) (k : Nat) (S : List String)
    (hload : loadSources sources = .ok rl0)
    (hk : k ≤ rl0.requests.length)
    (hS : S ≠ [])
    (hpos : ∀ key ∈ S, ∃ i, List.lookup key rl0.uniqueKeyToIndex = some i ∧ i < k) :
    getState { rl0 with nextIndex := k, inProgress := S, isInitialized := true } =
      .ok ⟨(k : Int), (rl0.requests[k]?).map Request.uniqueKey, S⟩ ∧
    initRequestList sources
        (some ⟨(k : Int), (rl0.requests[k]?).map Request.uniqueKey, S⟩) =
      .ok { rl0 with
        nextIndex := k
        inProgress := S
        reclaimed := S
        isInitialized := true } ∧
    fetchN S.length
        { rl0 with
          nextIndex := k
          inProgress := S
          reclaimed := S
          isInitialized := true } =
      (S.map (requestForKey rl0),
        { rl0 with
          nextIndex := k
          inProgress := S
          reclaimed := []
          isInitialized := true }) ∧
    (∀ key ∈ S, ∃ i, List.lookup key rl0.uniqueKeyToIndex = some i ∧ i < k ∧
      requestForKey rl0 key = rl0.requests[i]?) := by
  have hinv : loadInvariant rl0 :=
    (loadSourcesAux_dedup sources emptyRequestList rl0 emptyRequestList_invariant hload).1
  have hkeys : ∀ key ∈ S, key ≠ "" := by
    intro key hkS
    obtain ⟨i, hl, -⟩ := hpos key hkS
    exact hinv.2.2 key ((hinv.2.1 key).mp (by rw [hl]; rfl))
  have hknown : ∀ key ∈ S, (List.lookup key rl0.uniqueKeyToIndex).isSome := by
    intro key hkS
    obtain ⟨i, hl, -⟩ := hpos key hkS
    rw [hl]
    rfl
  have hfilt : S.filter (keyAtOrPastCursor rl0 k) = [] := by
    rw [List.filter_eq_nil_iff]
    intro key hkS
    obtain ⟨i, hl, hik⟩ := hpos key hkS
    unfold keyAtOrPastCursor
    rw [hl]
    simp
    omega
  have hrestore : restoreState rl0 ⟨(k : Int), (rl0.requests[k]?).map Request.uniqueKey, S⟩ =
      .ok { rl0 with nextIndex := k, inProgress := S, reclaimed := S } := by
    have hc1 : ¬((k : Int) < 0) := by omega
    have hc2 : ¬((rl0.requests.length : Int) < (k : Int)) := by
      exact_mod_cast not_lt.mpr hk
    have htn : ((k : Int)).toNat = k := by omega
    simp only [restoreState]
    rw [if_neg hc1, if_neg hc2, htn]
    rw [if_neg (fun hcc => hcc.2 rfl)]
    rw [collect_ok_of_known rl0 k S [] hknown]
    simp only [List.nil_append]
    rw [hfilt]
    simp
  refine ⟨rfl, ?_, ?_, ?_⟩
  · unfold initRequestList
    simp only [hload, hrestore]
  · exact fetchN_drain S
      { rl0 with nextIndex := k, inProgress := S, reclaimed := S, isInitialized := true }
      rfl rfl hkeys
  · intro key hkS
    obtain ⟨i, hl, hik⟩ := hpos key hkS
    refine ⟨i, hl, hik, ?_⟩
    unfold requestForKey
    rw [hl]
    rfl


/-- Witness for C3: the three-item queue at cursor 2 with `a` in flight. -/
theorem snapshot_roundtrip_witness :
    getState { abcLoaded with nextIndex := 2, inProgress := ["a"], isInitialized := true } =
      .ok ⟨((2 : Nat) : Int), (abcLoaded.requests[(2 : Nat)]?).map Request.uniqueKey, ["a"]⟩ ∧
    initRequestList abcSources
        (some ⟨((2 : Nat) : Int), (abcLoaded.requests[(2 : Nat)]?).map Request.uniqueKey, ["a"]⟩) =
      .ok { abcLoaded with
        nextIndex := 2
        inProgress := ["a"]
        reclaimed := ["a"]
        isInitialized := true } ∧
    fetchN (["a"] : List String).length
        { abcLoaded with
          nextIndex := 2
          inProgress := ["a"]
          reclaimed := ["a"]
          isInitialized := true } =
      ((["a"] : List String).map (requestForKey abcLoaded),
        { abcLoaded with
          nextIndex := 2
          inProgress := ["a"]
          reclaimed := []
          isInitialized := true }) ∧
    (∀ key ∈ (["a"] : List String), ∃ i,
      List.lookup key abcLoaded.uniqueKeyToIndex = some i ∧ i < 2 ∧
      requestForKey abcLoaded key = abcLoaded.requests[i]?) :=
  snapshot_roundtrip abcSources abcLoaded 2 ["a"] (by decide) (by decide) (by decide)
    (fun key hk => by
      simp only [List.mem_singleton] at hk
      subst hk
      exact ⟨0, rfl, by omega⟩)


end RequestListSpec






